import Mathlib

/-!
Verification development for the torrentedge-UI dashboard.

Shallow embedding of the client-side logic of the repository:
the torrent collection and the progress-event reconciliation of
src/pages/Dashboard.tsx, the speed-sample buffer of
src/components/SpeedGraph.tsx, the reference-counted shared socket of
src/hooks/useSocket.ts, the response handler of src/services/api.ts, and
the derived-view logic (filter, sort, status counts) of the dashboard.
JS numbers that the code guards with nullish or falsy defaults are
modelled as `Option Int` (JS undefined is `none`); fallible operations
return `Except`.
-/

namespace TorrentEdge

/-- Model of the `Torrent` interface (src/types.ts) restricted to the fields
the dashboard logic reads.  `createdAt` is the epoch-millisecond value of the
runtime field read at Dashboard.tsx:232 (`new Date(a.createdAt || 0).getTime()`);
an absent value behaves as 0 there. -/
structure Torrent where
  name : String
  infoHash : String
  size : Option Int
  status : String
  progress : Option Int
  downloadSpeed : Option Int
  uploadSpeed : Option Int
  addedAt : String
  createdAt : Option Int
  deriving DecidableEq

/-- Model of the `TorrentEvent` payload interface (src/hooks/useSocket.ts:5-11).
The interface has an open index signature; the dashboard handlers read
`infoHash`, `name`, `error` and, for progress events, `percentage`,
`downloadSpeed` and `uploadSpeed`. -/
structure TorrentEvent where
  infoHash : String
  name : Option String
  timestamp : Int
  error : Option String
  percentage : Option Int
  downloadSpeed : Option Int
  uploadSpeed : Option Int
  deriving DecidableEq

/-- JS `a || b` for an optional string: `undefined` and the empty string both
fall through to `b`. -/
def jsOr (a : Option String) (b : String) : String :=
  match a with
  | some s => if s = "" then b else s
  | none => b

/-- Dashboard.tsx:57-63, the `onProgress` callback: patch `progress`,
`downloadSpeed` and `uploadSpeed` of every entry whose `infoHash` equals the
`infoHash` carried by the event; leave every other entry alone. -/
def onProgress (data : TorrentEvent) (prev : List Torrent) : List Torrent :=
  prev.map fun t =>
    if t.infoHash = data.infoHash then
      { t with
        progress := data.percentage
        downloadSpeed := data.downloadSpeed
        uploadSpeed := data.uploadSpeed }
    else t

/-- Dashboard.tsx:199-204, the status-filter stage of `filteredTorrents`:
for filter value `completed` keep entries with `(t.progress ?? 0) >= 100`,
for any other non-`all` value keep entries whose `status` string equals the
filter value. -/
def filterByStatus (statusFilter : String) (l : List Torrent) : List Torrent :=
  if statusFilter = "all" then l
  else
    l.filter fun t =>
      if statusFilter = "completed" then decide (100 ≤ t.progress.getD 0)
      else decide (t.status = statusFilter)

/-- Model of the counts record built at Dashboard.tsx:336-346. -/
structure StatusCounts where
  all : Nat
  downloading : Nat
  seeding : Nat
  paused : Nat
  completed : Nat
  error : Nat
  deriving DecidableEq

/-- One iteration of the `torrents.forEach` of Dashboard.tsx:338-344:
progress at least 100 wins, otherwise the first matching status bucket of the
else-if chain is incremented, otherwise nothing. -/
def countStep (c : StatusCounts) (t : Torrent) : StatusCounts :=
  if 100 ≤ t.progress.getD 0 then { c with completed := c.completed + 1 }
  else if t.status = "downloading" then { c with downloading := c.downloading + 1 }
  else if t.status = "seeding" then { c with seeding := c.seeding + 1 }
  else if t.status = "paused" then { c with paused := c.paused + 1 }
  else if t.status = "error" then { c with error := c.error + 1 }
  else c

/-- Dashboard.tsx:336-346, `statusCounts`: `all` is the collection length and
the five buckets are accumulated by the forEach loop. -/
def statusCounts (torrents : List Torrent) : StatusCounts :=
  torrents.foldl countStep
    { all := torrents.length
      downloading := 0
      seeding := 0
      paused := 0
      completed := 0
      error := 0 }

/-- Model of the `SpeedSample` interface (src/types.ts). -/
structure SpeedSample where
  timestamp : Int
  downloadSpeed : Int
  uploadSpeed : Int
  deriving DecidableEq

/-- SpeedGraph.tsx:59-67, the live-update effect body: append `latestSpeed`;
if the buffer now holds more than 60 samples, `shift()` removes the oldest
one. -/
def pushSample (prev : List SpeedSample) (latestSpeed : SpeedSample) : List SpeedSample :=
  let newHistory := prev ++ [latestSpeed]
  if 60 < newHistory.length then newHistory.tail else newHistory

/-- State of the module-level shared-socket singleton of
src/hooks/useSocket.ts:20-23: whether `sharedSocket` is non-null, the value of
`socketRefCount`, the sizes of the `speedListeners` and `connectListeners`
sets, plus instrumentation counting `io(...)` connection opens and
`disconnect()` closes and recording the control messages emitted by
`releaseSharedSocket`. -/
structure SocketState where
  hasSocket : Bool
  socketRefCount : Int
  speedListeners : Nat
  connectListeners : Nat
  opens : Nat
  closes : Nat
  sent : List String
  deriving DecidableEq

/-- The module-level initial state: no socket, zero references, empty listener
sets. -/
def initialSocketState : SocketState :=
  { hasSocket := false
    socketRefCount := 0
    speedListeners := 0
    connectListeners := 0
    opens := 0
    closes := 0
    sent := [] }

/-- useSocket.ts:25-60, `getSharedSocket`: with no stored token it returns null
and changes nothing; otherwise, if no shared socket exists, it opens one. -/
def getSharedSocket (hasToken : Bool) (s : SocketState) : SocketState :=
  if hasToken = false then s
  else if s.hasSocket = false then { s with hasSocket := true, opens := s.opens + 1 }
  else s

/-- The subscribing effect body of the hooks (useSocket.ts:87-91 and 178-182):
call `getSharedSocket`; if it returned null (no token) stop, otherwise
increment `socketRefCount`. -/
def acquire (hasToken : Bool) (s : SocketState) : SocketState :=
  if hasToken = false then s
  else
    let s1 := getSharedSocket hasToken s
    { s1 with socketRefCount := s1.socketRefCount + 1 }

/-- useSocket.ts:62-73, `releaseSharedSocket`: decrement `socketRefCount`;
if the count is now at most 0 and a socket exists, emit `unsubscribe:all`,
disconnect, null the socket, reset the count to 0 and clear both listener
sets. -/
def releaseSharedSocket (s : SocketState) : SocketState :=
  let s1 := { s with socketRefCount := s.socketRefCount - 1 }
  if s1.socketRefCount ≤ 0 ∧ s1.hasSocket = true then
    { s1 with
      sent := s1.sent ++ ["unsubscribe:all"]
      closes := s1.closes + 1
      hasSocket := false
      socketRefCount := 0
      speedListeners := 0
      connectListeners := 0 }
  else s1

/-- Model of a toast notification as produced through `useToast`
(type, title, message, optional duration). -/
structure Toast where
  type : String
  title : String
  message : String
  duration : Option Nat
  deriving DecidableEq

/-- The socket events the dashboard subscribes to (useSocket.ts:136-140). -/
inductive SocketEvent where
  | progress (data : TorrentEvent)
  | added (data : TorrentEvent)
  | started (data : TorrentEvent)
  | completed (data : TorrentEvent)
  | error (data : TorrentEvent)
  deriving DecidableEq

/-- The dashboard-side effect of one incoming socket event, per the handlers
registered in useSocket.ts:99-140 wired to the dashboard collection: only
`torrent:progress` reaches `onProgress`; the four lifecycle handlers leave the
collection alone and (when toasts are enabled) emit one toast whose content
mirrors the handler bodies. -/
def applyEvent (enableToasts : Bool) (e : SocketEvent) (torrents : List Torrent) :
    List Torrent × List Toast :=
  match e with
  | .progress data => (onProgress data torrents, [])
  | .added data =>
      (torrents,
        if enableToasts then
          [{ type := "download"
             title := "Torrent Added"
             message := jsOr data.name (data.infoHash.take 12 ++ "...")
             duration := none }]
        else [])
  | .started data =>
      (torrents,
        if enableToasts then
          [{ type := "info"
             title := "Download Started"
             message := jsOr data.name "Torrent download initiated"
             duration := none }]
        else [])
  | .completed data =>
      (torrents,
        if enableToasts then
          [{ type := "success"
             title := "Download Complete! 🎉"
             message := jsOr data.name "Torrent finished downloading"
             duration := some 10000 }]
        else [])
  | .error data =>
      (torrents,
        if enableToasts then
          [{ type := "error"
             title := "Torrent Error"
             message := jsOr data.error (jsOr data.name "An error occurred")
             duration := none }]
        else [])

/-- Model of the `SystemStats.database` block (src/types.ts). -/
structure DatabaseStats where
  totalTorrents : Nat
  totalUsers : Nat
  activeTorrents : Nat
  deriving DecidableEq

/-- Model of the `SystemStats.engine` block (src/types.ts). -/
structure EngineStats where
  totalDownloadSpeed : Nat
  totalUploadSpeed : Nat
  activeTorrents : Nat
  totalTorrents : Nat
  totalDownloaded : Nat
  totalUploaded : Nat
  deriving DecidableEq

/-- Model of the `SystemStats` interface (src/types.ts), restricted to the
blocks the dashboard reads. -/
structure SystemStats where
  database : DatabaseStats
  engine : EngineStats
  timestamp : String
  deriving DecidableEq

/-- `Promise.all` over two already-determined promises: resolves with the pair
exactly when both resolve; rejects (with the first rejection) when at least one
rejects. -/
def promiseAll2 {ε α β : Type} (a : Except ε α) (b : Except ε β) : Except ε (α × β) :=
  match a, b with
  | .ok x, .ok y => .ok (x, y)
  | .error e, _ => .error e
  | _, .error e => .error e

/-- The dashboard state that `fetchData` touches, plus the toast list and the
console log so that user-facing notifications and developer logging stay
distinguishable. -/
structure DashboardState where
  torrents : List Torrent
  stats : Option SystemStats
  loading : Bool
  toasts : List Toast
  logs : List String
  deriving DecidableEq

/-- Dashboard.tsx:66-79, `fetchData`, as a function of the outcomes of the two
parallel requests (`torrentService.list()` and `statsService.getGlobal()`
combined with `Promise.all`): on success store both results; on failure the
catch block only calls `console.error` and the finally block clears
`loading`. -/
def fetchData (torrentListResult : Except String (List Torrent))
    (systemStatsResult : Except String SystemStats) (s : DashboardState) :
    DashboardState :=
  match promiseAll2 torrentListResult systemStatsResult with
  | .ok (torrentList, systemStats) =>
      { s with
        torrents := torrentList
        stats := some systemStats
        loading := false }
  | .error e =>
      { s with
        logs := s.logs ++ ["Failed to fetch data: " ++ e]
        loading := false }

/-- Model of the `ApiError` body view (src/types.ts) that `handleResponse`
reads from the parsed JSON. -/
structure ApiError where
  error : Option String
  message : Option String
  deriving DecidableEq

/-- An HTTP response as `handleResponse` consumes it: the `ok` flag, the
numeric status, and the already-parsed JSON body viewed through the `ApiError`
fields the handler reads. -/
structure HttpResponse where
  ok : Bool
  status : Nat
  body : ApiError
  deriving DecidableEq

/-- The pieces of browser state that `handleResponse` can touch: the
`te_token` entry of local storage and whether `window.location.reload()` was
triggered. -/
structure BrowserState where
  localToken : Option String
  reloaded : Bool
  deriving DecidableEq

/-- src/services/api.ts:18-30, `handleResponse`: on a non-ok response, a 401
status removes the stored token and reloads the page, and in every non-ok case
the handler throws `err.error || err.message || 'Request failed'`; on an ok
response the parsed body is returned and nothing else happens. -/
def handleResponse (response : HttpResponse) (w : BrowserState) :
    Except String ApiError × BrowserState :=
  if response.ok = false then
    let w1 :=
      if response.status = 401 then { w with localToken := none, reloaded := true }
      else w
    (Except.error (jsOr response.body.error (jsOr response.body.message "Request failed")), w1)
  else
    (Except.ok response.body, w)

/-- The sort keys of Dashboard.tsx:28 (`SortField`). -/
inductive SortField where
  | name
  | size
  | progress
  | speed
  | added
  deriving DecidableEq

/-- The sort directions of Dashboard.tsx:29 (`SortDir`). -/
inductive SortDir where
  | asc
  | desc
  deriving DecidableEq

/-- Lexicographic string comparison as a JS-style comparator value, modelling
`a.localeCompare(b)` at Dashboard.tsx:220 for the default lexicographic
ordering: negative, zero or positive. -/
def strCmp (a b : String) : Int :=
  if a < b then -1 else if b < a then 1 else 0

/-- Dashboard.tsx:216-234, the per-field comparator value `cmp` computed by
the switch inside the sort callback, before the direction is applied. -/
def cmpField : SortField → Torrent → Torrent → Int
  | .name, a, b => strCmp a.name b.name
  | .size, a, b => a.size.getD 0 - b.size.getD 0
  | .progress, a, b => a.progress.getD 0 - b.progress.getD 0
  | .speed, a, b => a.downloadSpeed.getD 0 - b.downloadSpeed.getD 0
  | .added, a, b => a.createdAt.getD 0 - b.createdAt.getD 0

/-- Dashboard.tsx:235: `return sortDir === 'asc' ? cmp : -cmp`. -/
def dirCmp (d : SortDir) (c : Int) : Int :=
  match d with
  | .asc => c
  | .desc => -c

/-- The full comparator passed to `result.sort` at Dashboard.tsx:216. -/
def comparator (f : SortField) (d : SortDir) (a b : Torrent) : Int :=
  dirCmp d (cmpField f a b)

/-- Dashboard.tsx:216-236, `result.sort(comparator)`: ECMAScript
`Array.prototype.sort` with a consistent comparator produces the unique stable
reordering that is sorted with respect to `comparator a b <= 0`; insertion
sort over that non-strict relation computes exactly this reordering. -/
def sortTorrents (f : SortField) (d : SortDir) (l : List Torrent) : List Torrent :=
  l.insertionSort fun a b => comparator f d a b ≤ 0

/-- The sort key each `SortField` case of the comparator switch reads from an
entry (a string for `name`, a number for the other four). -/
def sortKey (f : SortField) (t : Torrent) : String ⊕ Int :=
  match f with
  | .name => Sum.inl t.name
  | .size => Sum.inr (t.size.getD 0)
  | .progress => Sum.inr (t.progress.getD 0)
  | .speed => Sum.inr (t.downloadSpeed.getD 0)
  | .added => Sum.inr (t.createdAt.getD 0)

/-- A torrent with default field values, used to build concrete scenario
inputs. -/
def baseTorrent : Torrent :=
  { name := ""
    infoHash := ""
    size := none
    status := ""
    progress := none
    downloadSpeed := none
    uploadSpeed := none
    addedAt := ""
    createdAt := none }

/-- The entry of the end-to-end progress scenario: identity `a`, status
`downloading`, progress 40. -/
def torrentA : Torrent :=
  { baseTorrent with name := "a", infoHash := "a", status := "downloading", progress := some 40 }

/-- The event of the end-to-end progress scenario: identity `a`, progress 55,
download speed 1024. -/
def eventA : TorrentEvent :=
  { infoHash := "a"
    name := none
    timestamp := 0
    error := none
    percentage := some 55
    downloadSpeed := some 1024
    uploadSpeed := none }

/-- A progress event whose identity matches no scenario entry. -/
def eventB : TorrentEvent :=
  { infoHash := "zzz"
    name := none
    timestamp := 0
    error := none
    percentage := some 10
    downloadSpeed := some 1
    uploadSpeed := some 1 }

/-- Scenario entry for the completed filter: progress 100, status seeding. -/
def torrentSeeding : Torrent :=
  { baseTorrent with name := "s", infoHash := "s", status := "seeding", progress := some 100 }

/-- Scenario entry for the completed filter: progress 40, status downloading. -/
def torrentDownloading : Torrent :=
  { baseTorrent with name := "d", infoHash := "d", status := "downloading", progress := some 40 }

/-- Scenario entry for the completed filter: progress 100, status paused. -/
def torrentPaused : Torrent :=
  { baseTorrent with name := "p", infoHash := "p", status := "paused", progress := some 100 }

/-- A small torrent used as concrete sort input. -/
def torrentSmall : Torrent :=
  { baseTorrent with name := "a", infoHash := "x1", size := some 5 }

/-- A large torrent used as concrete sort input. -/
def torrentLarge : Torrent :=
  { baseTorrent with name := "b", infoHash := "x2", size := some 10 }

/-- A concrete stats snapshot used in the fetch scenarios. -/
def statsSample : SystemStats :=
  { database := { totalTorrents := 2, totalUsers := 1, activeTorrents := 1 }
    engine :=
      { totalDownloadSpeed := 0
        totalUploadSpeed := 0
        activeTorrents := 1
        totalTorrents := 2
        totalDownloaded := 0
        totalUploaded := 0 }
    timestamp := "t0" }

/-- A concrete dashboard state used in the fetch scenarios: one stored torrent,
no stats, no toasts, no logs. -/
def dashSample : DashboardState :=
  { torrents := [torrentA]
    stats := none
    loading := true
    toasts := []
    logs := [] }

end TorrentEdge

namespace TorrentEdge

/-- Claim C5: the completed filter returns exactly the entries whose progress
is at least 100, independent of their status string, preserving their original
relative order (the result is literally `List.filter` of the progress
predicate); on the three-torrent scenario with progress [100, 40, 100] and
statuses [seeding, downloading, paused] it returns the first and third entries
in order. -/
theorem completed_filter_exact :
    (∀ l : List Torrent,
        filterByStatus "completed" l
          = l.filter fun t => decide (100 ≤ t.progress.getD 0)) ∧
    (∀ (l : List Torrent) (t : Torrent),
        t ∈ filterByStatus "completed" l ↔ t ∈ l ∧ 100 ≤ t.progress.getD 0) ∧
    filterByStatus "completed" [torrentSeeding, torrentDownloading, torrentPaused]
      = [torrentSeeding, torrentPaused] := by
  have h1 : ∀ l : List Torrent,
      filterByStatus "completed" l
        = l.filter fun t => decide (100 ≤ t.progress.getD 0) := fun l => rfl
  refine ⟨h1, fun l t => ?_, by decide⟩
  rw [h1]
  simp [List.mem_filter]

/-- Claim C6: a progress event whose identity matches no entry of the
collection leaves the collection exactly unchanged. -/
theorem unknown_progress_event_dropped (data : TorrentEvent) (prev : List Torrent)
    (h : ∀ t ∈ prev, t.infoHash ≠ data.infoHash) :
    onProgress data prev = prev := by
  induction prev with
  | nil => rfl
  | cons t ts ih =>
    have ht : t.infoHash ≠ data.infoHash := h t (List.mem_cons_self t ts)
    have hts : ∀ u ∈ ts, u.infoHash ≠ data.infoHash := fun u hu =>
      h u (List.mem_cons_of_mem t hu)
    unfold onProgress at ih ⊢
    simp only [List.map_cons, if_neg ht]
    rw [ih hts]

/-- Witness for C6: a concrete one-entry collection and a non-matching
event. -/
theorem unknown_progress_event_dropped_witness :
    (∀ t ∈ [torrentA], t.infoHash ≠ eventB.infoHash) ∧
      onProgress eventB [torrentA] = [torrentA] :=
  ⟨by decide, unknown_progress_event_dropped eventB [torrentA] (by decide)⟩

/-- Claim C7: each of the four lifecycle events (added, started, completed,
error) leaves the torrent collection untouched whatever the payload; the
handlers only produce notifications. -/
theorem lifecycle_events_leave_collection :
    ∀ (enableToasts : Bool) (data : TorrentEvent) (torrents : List Torrent),
      (applyEvent enableToasts (SocketEvent.added data) torrents).1 = torrents ∧
      (applyEvent enableToasts (SocketEvent.started data) torrents).1 = torrents ∧
      (applyEvent enableToasts (SocketEvent.completed data) torrents).1 = torrents ∧
      (applyEvent enableToasts (SocketEvent.error data) torrents).1 = torrents := by
  intro b d ts
  exact ⟨rfl, rfl, rfl, rfl⟩

theorem countStep_all (c : StatusCounts) (t : Torrent) : (countStep c t).all = c.all := by
  unfold countStep
  split_ifs <;> rfl

theorem countStep_completed (c : StatusCounts) (t : Torrent) :
    (countStep c t).completed
      = c.completed + (if 100 ≤ t.progress.getD 0 then 1 else 0) := by
  unfold countStep
  split_ifs <;> rfl

theorem countStep_downloading (c : StatusCounts) (t : Torrent) :
    (countStep c t).downloading
      = c.downloading
        + (if ¬ 100 ≤ t.progress.getD 0 ∧ t.status = "downloading" then 1 else 0) := by
  unfold countStep
  split_ifs <;> simp_all

theorem countStep_seeding (c : StatusCounts) (t : Torrent) :
    (countStep c t).seeding
      = c.seeding
        + (if ¬ 100 ≤ t.progress.getD 0 ∧ t.status = "seeding" then 1 else 0) := by
  unfold countStep
  split_ifs <;> simp_all

theorem countStep_paused (c : StatusCounts) (t : Torrent) :
    (countStep c t).paused
      = c.paused
        + (if ¬ 100 ≤ t.progress.getD 0 ∧ t.status = "paused" then 1 else 0) := by
  unfold countStep
  split_ifs <;> simp_all

theorem countStep_error (c : StatusCounts) (t : Torrent) :
    (countStep c t).error
      = c.error
        + (if ¬ 100 ≤ t.progress.getD 0 ∧ t.status = "error" then 1 else 0) := by
  unfold countStep
  split_ifs <;> simp_all

theorem foldl_countStep_all (ts : List Torrent) (c : StatusCounts) :
    (ts.foldl countStep c).all = c.all := by
  induction ts generalizing c with
  | nil => rfl
  | cons t ts ih =>
    rw [List.foldl_cons, ih, countStep_all]

theorem foldl_countStep_completed (ts : List Torrent) (c : StatusCounts) :
    (ts.foldl countStep c).completed
      = c.completed + ts.countP (fun t => decide (100 ≤ t.progress.getD 0)) := by
  induction ts generalizing c with
  | nil => simp
  | cons t ts ih =>
    rw [List.foldl_cons, List.countP_cons, ih, countStep_completed]
    by_cases h : 100 ≤ t.progress.getD 0 <;> simp [h] <;> omega

theorem foldl_countStep_downloading (ts : List Torrent) (c : StatusCounts) :
    (ts.foldl countStep c).downloading
      = c.downloading
        + ts.countP (fun t => decide (¬ 100 ≤ t.progress.getD 0 ∧ t.status = "downloading")) := by
  induction ts generalizing c with
  | nil => simp
  | cons t ts ih =>
    rw [List.foldl_cons, List.countP_cons, ih, countStep_downloading]
    by_cases h : ¬ 100 ≤ t.progress.getD 0 ∧ t.status = "downloading" <;> simp [h] <;> omega

theorem foldl_countStep_seeding (ts : List Torrent) (c : StatusCounts) :
    (ts.foldl countStep c).seeding
      = c.seeding
        + ts.countP (fun t => decide (¬ 100 ≤ t.progress.getD 0 ∧ t.status = "seeding")) := by
  induction ts generalizing c with
  | nil => simp
  | cons t ts ih =>
    rw [List.foldl_cons, List.countP_cons, ih, countStep_seeding]
    by_cases h : ¬ 100 ≤ t.progress.getD 0 ∧ t.status = "seeding" <;> simp [h] <;> omega

theorem foldl_countStep_paused (ts : List Torrent) (c : StatusCounts) :
    (ts.foldl countStep c).paused
      = c.paused
        + ts.countP (fun t => decide (¬ 100 ≤ t.progress.getD 0 ∧ t.status = "paused")) := by
  induction ts generalizing c with
  | nil => simp
  | cons t ts ih =>
    rw [List.foldl_cons, List.countP_cons, ih, countStep_paused]
    by_cases h : ¬ 100 ≤ t.progress.getD 0 ∧ t.status = "paused" <;> simp [h] <;> omega

theorem foldl_countStep_error (ts : List Torrent) (c : StatusCounts) :
    (ts.foldl countStep c).error
      = c.error
        + ts.countP (fun t => decide (¬ 100 ≤ t.progress.getD 0 ∧ t.status = "error")) := by
  induction ts generalizing c with
  | nil => simp
  | cons t ts ih =>
    rw [List.foldl_cons, List.countP_cons, ih, countStep_error]
    by_cases h : ¬ 100 ≤ t.progress.getD 0 ∧ t.status = "error" <;> simp [h] <;> omega

theorem bucket_countP_sum_le (ts : List Torrent) :
    ts.countP (fun t => decide (¬ 100 ≤ t.progress.getD 0 ∧ t.status = "downloading"))
      + ts.countP (fun t => decide (¬ 100 ≤ t.progress.getD 0 ∧ t.status = "seeding"))
      + ts.countP (fun t => decide (¬ 100 ≤ t.progress.getD 0 ∧ t.status = "paused"))
      + ts.countP (fun t => decide (¬ 100 ≤ t.progress.getD 0 ∧ t.status = "error"))
      + ts.countP (fun t => decide (100 ≤ t.progress.getD 0)) ≤ ts.length := by
  induction ts with
  | nil => simp
  | cons t ts ih =>
    simp only [List.countP_cons, List.length_cons, decide_eq_true_eq]
    by_cases h1 : 100 ≤ t.progress.getD 0
    · rw [if_pos h1, if_neg (by simp [h1]), if_neg (by simp [h1]), if_neg (by simp [h1]),
        if_neg (by simp [h1])]
      omega
    · rw [if_neg h1]
      by_cases h2 : t.status = "downloading"
      · rw [if_pos ⟨h1, h2⟩, if_neg (by simp [h2]), if_neg (by simp [h2]),
          if_neg (by simp [h2])]
        omega
      · rw [if_neg (by simp [h2])]
        by_cases h3 : t.status = "seeding"
        · rw [if_pos ⟨h1, h3⟩, if_neg (by simp [h3]), if_neg (by simp [h3])]
          omega
        · rw [if_neg (by simp [h3])]
          by_cases h4 : t.status = "paused"
          · rw [if_pos ⟨h1, h4⟩, if_neg (by simp [h4])]
            omega
          · rw [if_neg (by simp [h4])]
            by_cases h5 : t.status = "error"
            · rw [if_pos ⟨h1, h5⟩]
              omega
            · rw [if_neg (by simp [h5])]
              omega

/-- Claim C10: in `statusCounts`, progress at least 100 takes precedence
(such a torrent is counted only as completed, never under its status bucket),
each torrent lands in at most one of the five buckets (their sum never
exceeds the total), and the `all` count equals the collection length. -/
theorem status_counts_partition :
    ∀ ts : List Torrent,
      (statusCounts ts).all = ts.length ∧
      (statusCounts ts).completed
        = ts.countP (fun t => decide (100 ≤ t.progress.getD 0)) ∧
      (statusCounts ts).downloading
        = ts.countP (fun t => decide (¬ 100 ≤ t.progress.getD 0 ∧ t.status = "downloading")) ∧
      (statusCounts ts).seeding
        = ts.countP (fun t => decide (¬ 100 ≤ t.progress.getD 0 ∧ t.status = "seeding")) ∧
      (statusCounts ts).paused
        = ts.countP (fun t => decide (¬ 100 ≤ t.progress.getD 0 ∧ t.status = "paused")) ∧
      (statusCounts ts).error
        = ts.countP (fun t => decide (¬ 100 ≤ t.progress.getD 0 ∧ t.status = "error")) ∧
      (statusCounts ts).downloading + (statusCounts ts).seeding + (statusCounts ts).paused
          + (statusCounts ts).error + (statusCounts ts).completed ≤ (statusCounts ts).all := by
  intro ts
  unfold statusCounts
  rw [foldl_countStep_all, foldl_countStep_completed, foldl_countStep_downloading,
    foldl_countStep_seeding, foldl_countStep_paused, foldl_countStep_error]
  have hsum := bucket_countP_sum_le ts
  refine ⟨rfl, by simp, by simp, by simp, by simp, by simp, ?_⟩
  simp only
  omega

/-- Claim C1: a progress event patches exactly the progress, downloadSpeed and
uploadSpeed fields of each entry whose identity matches, to the values carried
by the event, leaving status, name, size, addedAt, infoHash and createdAt of
that entry and every non-matching entry unchanged; the length of the
collection is preserved; and on the end-to-end scenario the collection
[torrentA] with eventA yields the single entry with progress 55, download
speed 1024 and unchanged status. -/
theorem progress_event_frame_effect (data : TorrentEvent) (prev : List Torrent) :
    (onProgress data prev).length = prev.length ∧
    (∀ (i : Nat) (h : i < prev.length) (h2 : i < (onProgress data prev).length),
        (prev.get ⟨i, h⟩).infoHash = data.infoHash →
          ((onProgress data prev).get ⟨i, h2⟩).progress = data.percentage ∧
          ((onProgress data prev).get ⟨i, h2⟩).downloadSpeed = data.downloadSpeed ∧
          ((onProgress data prev).get ⟨i, h2⟩).uploadSpeed = data.uploadSpeed ∧
          ((onProgress data prev).get ⟨i, h2⟩).status = (prev.get ⟨i, h⟩).status ∧
          ((onProgress data prev).get ⟨i, h2⟩).name = (prev.get ⟨i, h⟩).name ∧
          ((onProgress data prev).get ⟨i, h2⟩).size = (prev.get ⟨i, h⟩).size ∧
          ((onProgress data prev).get ⟨i, h2⟩).addedAt = (prev.get ⟨i, h⟩).addedAt ∧
          ((onProgress data prev).get ⟨i, h2⟩).infoHash = (prev.get ⟨i, h⟩).infoHash ∧
          ((onProgress data prev).get ⟨i, h2⟩).createdAt = (prev.get ⟨i, h⟩).createdAt) ∧
    (∀ (i : Nat) (h : i < prev.length) (h2 : i < (onProgress data prev).length),
        (prev.get ⟨i, h⟩).infoHash ≠ data.infoHash →
          (onProgress data prev).get ⟨i, h2⟩ = prev.get ⟨i, h⟩) ∧
    onProgress eventA [torrentA]
      = [{ torrentA with progress := some 55, downloadSpeed := some 1024, uploadSpeed := none }] := by
  have hg : ∀ (i : Nat) (h : i < prev.length) (h2 : i < (onProgress data prev).length),
      (onProgress data prev).get ⟨i, h2⟩
        = if (prev.get ⟨i, h⟩).infoHash = data.infoHash then
            { prev.get ⟨i, h⟩ with
              progress := data.percentage
              downloadSpeed := data.downloadSpeed
              uploadSpeed := data.uploadSpeed }
          else prev.get ⟨i, h⟩ := by
    intro i h h2
    simp [onProgress]
  refine ⟨by simp [onProgress], ?_, ?_, by decide⟩
  · intro i h h2 hmatch
    rw [hg i h h2, if_pos hmatch]
    exact ⟨rfl, rfl, rfl, rfl, rfl, rfl, rfl, rfl, rfl⟩
  · intro i h h2 hne
    rw [hg i h h2, if_neg hne]

/-- Witness for C1: the patched and the frame fields at index 0 of the
scenario collection. -/
theorem progress_event_frame_effect_witness :
    ((onProgress eventA [torrentA]).get ⟨0, by decide⟩).progress = eventA.percentage ∧
      ((onProgress eventA [torrentA]).get ⟨0, by decide⟩).status
        = ([torrentA].get ⟨0, by decide⟩).status := by
  have h := (progress_event_frame_effect eventA [torrentA]).2.1 0 (by decide) (by decide)
    (by decide)
  exact ⟨h.1, h.2.2.2.1⟩

set_option maxRecDepth 8000 in
/-- Claim C2: insertion into the speed-sample buffer is strict FIFO with
capacity 60: below capacity the sample is appended at the end; at capacity the
sample is appended and exactly the oldest entry is evicted; the length bound
is preserved by every insertion and holds for every buffer built from the
empty one; and 61 samples with timestamps 1..61 inserted into the empty buffer
leave the samples with timestamps 2..61 in their original relative order. -/
theorem speed_history_fifo_bound :
    (∀ (prev : List SpeedSample) (s : SpeedSample),
        prev.length < 60 → pushSample prev s = prev ++ [s]) ∧
    (∀ (prev : List SpeedSample) (s : SpeedSample),
        prev.length = 60 → pushSample prev s = prev.tail ++ [s]) ∧
    (∀ (prev : List SpeedSample) (s : SpeedSample),
        prev.length ≤ 60 → (pushSample prev s).length ≤ 60) ∧
    (∀ samples : List SpeedSample, (samples.foldl pushSample []).length ≤ 60) ∧
    ((List.range 61).map (fun i =>
          ({ timestamp := (i : Int) + 1, downloadSpeed := 0, uploadSpeed := 0 } : SpeedSample))).foldl
        pushSample []
      = (List.range 60).map fun i =>
          ({ timestamp := (i : Int) + 2, downloadSpeed := 0, uploadSpeed := 0 } : SpeedSample) := by
  have hlt : ∀ (prev : List SpeedSample) (s : SpeedSample),
      prev.length < 60 → pushSample prev s = prev ++ [s] := by
    intro prev s h
    have hc : ¬ 60 < (prev ++ [s]).length := by
      simp only [List.length_append, List.length_singleton]
      omega
    simp only [pushSample]
    rw [if_neg hc]
  have hfull : ∀ (prev : List SpeedSample) (s : SpeedSample),
      prev.length = 60 → pushSample prev s = prev.tail ++ [s] := by
    intro prev s h
    have hc : 60 < (prev ++ [s]).length := by
      simp only [List.length_append, List.length_singleton]
      omega
    simp only [pushSample]
    rw [if_pos hc]
    cases prev with
    | nil => simp at h
    | cons a t => rfl
  have hbound : ∀ (prev : List SpeedSample) (s : SpeedSample),
      prev.length ≤ 60 → (pushSample prev s).length ≤ 60 := by
    intro prev s h
    simp only [pushSample]
    split_ifs with hc
    · simp only [List.length_tail, List.length_append, List.length_singleton]
      omega
    · simp only [List.length_append, List.length_singleton] at hc ⊢
      omega
  have hfold : ∀ (samples : List SpeedSample) (init : List SpeedSample),
      init.length ≤ 60 → (samples.foldl pushSample init).length ≤ 60 := by
    intro samples
    induction samples with
    | nil => intro init h; exact h
    | cons s ss ih =>
      intro init h
      simp only [List.foldl_cons]
      exact ih _ (hbound _ _ h)
  exact ⟨hlt, hfull, hbound, fun samples => hfold samples [] (by simp), by decide⟩

/-- Witness for C2: one insertion into the empty buffer appends. -/
theorem speed_history_fifo_bound_witness :
    ([] : List SpeedSample).length < 60 ∧
      pushSample [] { timestamp := 1, downloadSpeed := 2, uploadSpeed := 3 }
        = [{ timestamp := 1, downloadSpeed := 2, uploadSpeed := 3 }] :=
  ⟨by decide, speed_history_fifo_bound.1 [] _ (by decide)⟩

/-- Claim C3: a release while more than one reference is held leaves the
socket open, performs no close and emits nothing; the release that brings the
count to zero emits unsubscribe:all, closes the socket and clears both
listener sets; and the sequence acquire, acquire, release, release from the
initial state (with a stored token) opens exactly one connection and closes
exactly one. -/
theorem socket_refcount_lifecycle :
    (∀ s : SocketState, 1 < s.socketRefCount →
        (releaseSharedSocket s).hasSocket = s.hasSocket ∧
        (releaseSharedSocket s).closes = s.closes ∧
        (releaseSharedSocket s).sent = s.sent ∧
        (releaseSharedSocket s).socketRefCount = s.socketRefCount - 1) ∧
    (∀ s : SocketState, s.socketRefCount = 1 → s.hasSocket = true →
        (releaseSharedSocket s).hasSocket = false ∧
        (releaseSharedSocket s).closes = s.closes + 1 ∧
        (releaseSharedSocket s).sent = s.sent ++ ["unsubscribe:all"] ∧
        (releaseSharedSocket s).speedListeners = 0 ∧
        (releaseSharedSocket s).connectListeners = 0) ∧
    ((releaseSharedSocket (releaseSharedSocket (acquire true (acquire true
        initialSocketState)))).opens = 1 ∧
      (releaseSharedSocket (releaseSharedSocket (acquire true (acquire true
        initialSocketState)))).closes = 1) := by
  refine ⟨?_, ?_, by decide⟩
  · intro s h
    have hc : ¬ (({ s with socketRefCount := s.socketRefCount - 1 }).socketRefCount ≤ 0
        ∧ ({ s with socketRefCount := s.socketRefCount - 1 }).hasSocket = true) := by
      show ¬ (s.socketRefCount - 1 ≤ 0 ∧ s.hasSocket = true)
      intro hcon
      exact absurd hcon.1 (by omega)
    unfold releaseSharedSocket
    rw [if_neg hc]
    exact ⟨rfl, rfl, rfl, rfl⟩
  · intro s h1 h2
    have hc : ({ s with socketRefCount := s.socketRefCount - 1 }).socketRefCount ≤ 0
        ∧ ({ s with socketRefCount := s.socketRefCount - 1 }).hasSocket = true := by
      refine ⟨?_, h2⟩
      show s.socketRefCount - 1 ≤ 0
      omega
    unfold releaseSharedSocket
    rw [if_pos hc]
    exact ⟨rfl, rfl, rfl, rfl, rfl⟩

/-- Witness for C3: a release at reference count 2 closes nothing. -/
theorem socket_refcount_lifecycle_witness :
    (releaseSharedSocket
      { hasSocket := true
        socketRefCount := 2
        speedListeners := 1
        connectListeners := 1
        opens := 1
        closes := 0
        sent := [] }).closes = 0 :=
  (socket_refcount_lifecycle.1 _ (by decide)).2.1

/-- Counterexample to C8 as stated: with a failing torrent-list request,
`fetchData` surfaces no user-facing notification — the toast list of the
state is unchanged (still empty); the catch block of Dashboard.tsx:74-75 only
writes to the console log. -/
theorem fetch_failure_no_toast :
    (fetchData (Except.error "network error") (Except.ok statsSample) dashSample).toasts = []
      ∧ (fetchData (Except.error "network error") (Except.ok statsSample) dashSample).logs
          = ["Failed to fetch data: network error"] := by
  exact ⟨rfl, rfl⟩

/-- Claim C8 as amended: the snapshot fetch combines the two parallel requests
so that the composite succeeds exactly when both succeed; on failure the error
is caught — the view does not crash and the error is only logged to the
console, with no user-facing notification — and neither the stored torrent
list nor the stored stats is updated; on success both are stored; in every
case loading is cleared. -/
theorem fetch_parallel_failure_amended :
    (∀ (a : Except String (List Torrent)) (b : Except String SystemStats),
        (promiseAll2 a b).isOk = (a.isOk && b.isOk)) ∧
    (∀ (a : Except String (List Torrent)) (b : Except String SystemStats)
        (s : DashboardState), (a.isOk = false ∨ b.isOk = false) →
        (fetchData a b s).torrents = s.torrents ∧
        (fetchData a b s).stats = s.stats ∧
        (fetchData a b s).toasts = s.toasts ∧
        (fetchData a b s).loading = false) ∧
    (∀ (tl : List Torrent) (ss : SystemStats) (s : DashboardState),
        fetchData (Except.ok tl) (Except.ok ss) s
          = { s with torrents := tl, stats := some ss, loading := false }) := by
  refine ⟨?_, ?_, fun tl ss s => rfl⟩
  · intro a b
    cases a <;> cases b <;> rfl
  · intro a b s h
    cases a with
    | error e => cases b <;> exact ⟨rfl, rfl, rfl, rfl⟩
    | ok tl =>
      cases b with
      | error e => exact ⟨rfl, rfl, rfl, rfl⟩
      | ok ss =>
        simp [Except.isOk] at h
        rcases h with h | h <;> cases h

/-- Witness for C8 (amended): a concrete failing stats request leaves the
stored torrents unchanged. -/
theorem fetch_parallel_failure_amended_witness :
    (fetchData (Except.ok []) (Except.error "boom") dashSample).torrents
      = dashSample.torrents :=
  (fetch_parallel_failure_amended.2.1 (Except.ok []) (Except.error "boom") dashSample
    (Or.inr rfl)).1

/-- Claim C9: a non-ok response with status 401 removes the stored bearer
token, triggers the full page reload and still rejects with an error; an ok
response touches neither the token nor the page and returns the parsed
body. -/
theorem handle_response_auth_spec :
    (∀ (r : HttpResponse) (w : BrowserState), r.ok = false → r.status = 401 →
        (handleResponse r w).2.localToken = none ∧
        (handleResponse r w).2.reloaded = true ∧
        ∃ e, (handleResponse r w).1 = Except.error e) ∧
    (∀ (r : HttpResponse) (w : BrowserState), r.ok = true →
        (handleResponse r w).2 = w ∧ (handleResponse r w).1 = Except.ok r.body) := by
  constructor
  · intro r w hok h401
    unfold handleResponse
    rw [if_pos hok, if_pos h401]
    exact ⟨rfl, rfl, _, rfl⟩
  · intro r w hok
    unfold handleResponse
    have : ¬ r.ok = false := by simp [hok]
    rw [if_neg this]
    exact ⟨rfl, rfl⟩

/-- Witness for C9: a concrete 401 response clears the token and reloads, and
a concrete ok response is passed through. -/
theorem handle_response_auth_spec_witness :
    ((handleResponse { ok := false, status := 401, body := { error := some "expired", message := none } }
        { localToken := some "tok", reloaded := false }).2.localToken = none) ∧
      ((handleResponse { ok := true, status := 200, body := { error := none, message := none } }
          { localToken := some "tok", reloaded := false }).2
        = { localToken := some "tok", reloaded := false }) :=
  ⟨(handle_response_auth_spec.1 _ _ rfl rfl).1, (handle_response_auth_spec.2 _ _ rfl).1⟩

theorem strCmp_neg (a b : String) : strCmp a b = -strCmp b a := by
  unfold strCmp
  rcases lt_trichotomy a b with h | h | h
  · rw [if_pos h, if_neg (asymm h), if_pos h]
  · subst h
    simp [lt_irrefl]
  · rw [if_neg (asymm h), if_pos h, if_pos h]
    norm_num

theorem strCmp_le_iff (a b : String) : strCmp a b ≤ 0 ↔ a ≤ b := by
  unfold strCmp
  rcases lt_trichotomy a b with h | h | h
  · rw [if_pos h]
    simp [le_of_lt h]
  · subst h
    simp [lt_irrefl]
  · rw [if_neg (asymm h), if_pos h]
    constructor
    · intro hc
      norm_num at hc
    · intro hc
      exact absurd hc (not_le.mpr h)

theorem strCmp_eq_zero_iff (a b : String) : strCmp a b = 0 ↔ a = b := by
  unfold strCmp
  rcases lt_trichotomy a b with h | h | h
  · rw [if_pos h]
    simp [ne_of_lt h]
  · subst h
    simp [lt_irrefl]
  · rw [if_neg (asymm h), if_pos h]
    simp [(ne_of_lt h).symm]

theorem cmpField_neg (f : SortField) (a b : Torrent) : cmpField f a b = -cmpField f b a := by
  cases f
  · exact strCmp_neg a.name b.name
  · show a.size.getD 0 - b.size.getD 0 = -(b.size.getD 0 - a.size.getD 0)
    omega
  · show a.progress.getD 0 - b.progress.getD 0 = -(b.progress.getD 0 - a.progress.getD 0)
    omega
  · show a.downloadSpeed.getD 0 - b.downloadSpeed.getD 0
        = -(b.downloadSpeed.getD 0 - a.downloadSpeed.getD 0)
    omega
  · show a.createdAt.getD 0 - b.createdAt.getD 0 = -(b.createdAt.getD 0 - a.createdAt.getD 0)
    omega

theorem cmpField_zero_iff (f : SortField) (a b : Torrent) :
    cmpField f a b = 0 ↔ sortKey f a = sortKey f b := by
  cases f
  · show strCmp a.name b.name = 0 ↔ (Sum.inl a.name : String ⊕ Int) = Sum.inl b.name
    rw [strCmp_eq_zero_iff]
    simp
  · show a.size.getD 0 - b.size.getD 0 = 0
        ↔ (Sum.inr (a.size.getD 0) : String ⊕ Int) = Sum.inr (b.size.getD 0)
    simp
    omega
  · show a.progress.getD 0 - b.progress.getD 0 = 0
        ↔ (Sum.inr (a.progress.getD 0) : String ⊕ Int) = Sum.inr (b.progress.getD 0)
    simp
    omega
  · show a.downloadSpeed.getD 0 - b.downloadSpeed.getD 0 = 0
        ↔ (Sum.inr (a.downloadSpeed.getD 0) : String ⊕ Int) = Sum.inr (b.downloadSpeed.getD 0)
    simp
    omega
  · show a.createdAt.getD 0 - b.createdAt.getD 0 = 0
        ↔ (Sum.inr (a.createdAt.getD 0) : String ⊕ Int) = Sum.inr (b.createdAt.getD 0)
    simp
    omega

theorem cmpField_le_total (f : SortField) (a b : Torrent) :
    cmpField f a b ≤ 0 ∨ cmpField f b a ≤ 0 := by
  have hn := cmpField_neg f a b
  omega

theorem cmpField_le_trans (f : SortField) {a b c : Torrent}
    (hab : cmpField f a b ≤ 0) (hbc : cmpField f b c ≤ 0) : cmpField f a c ≤ 0 := by
  cases f
  · have h1 : a.name ≤ b.name := (strCmp_le_iff a.name b.name).mp hab
    have h2 : b.name ≤ c.name := (strCmp_le_iff b.name c.name).mp hbc
    exact (strCmp_le_iff a.name c.name).mpr (le_trans h1 h2)
  · revert hab hbc
    show a.size.getD 0 - b.size.getD 0 ≤ 0 → b.size.getD 0 - c.size.getD 0 ≤ 0
        → a.size.getD 0 - c.size.getD 0 ≤ 0
    omega
  · revert hab hbc
    show a.progress.getD 0 - b.progress.getD 0 ≤ 0 → b.progress.getD 0 - c.progress.getD 0 ≤ 0
        → a.progress.getD 0 - c.progress.getD 0 ≤ 0
    omega
  · revert hab hbc
    show a.downloadSpeed.getD 0 - b.downloadSpeed.getD 0 ≤ 0
        → b.downloadSpeed.getD 0 - c.downloadSpeed.getD 0 ≤ 0
        → a.downloadSpeed.getD 0 - c.downloadSpeed.getD 0 ≤ 0
    omega
  · revert hab hbc
    show a.createdAt.getD 0 - b.createdAt.getD 0 ≤ 0 → b.createdAt.getD 0 - c.createdAt.getD 0 ≤ 0
        → a.createdAt.getD 0 - c.createdAt.getD 0 ≤ 0
    omega

theorem comparator_desc_iff (f : SortField) (a b : Torrent) :
    comparator f SortDir.desc a b ≤ 0 ↔ cmpField f b a ≤ 0 := by
  show -cmpField f a b ≤ 0 ↔ cmpField f b a ≤ 0
  have hn := cmpField_neg f a b
  omega

theorem sortTorrents_perm (f : SortField) (d : SortDir) (l : List Torrent) :
    (sortTorrents f d l).Perm l := by
  show (List.insertionSort (fun a b => comparator f d a b ≤ 0) l).Perm l
  exact List.perm_insertionSort _ l

theorem sortTorrents_sorted (f : SortField) (d : SortDir) (l : List Torrent) :
    List.Pairwise (fun a b => comparator f d a b ≤ 0) (sortTorrents f d l) := by
  haveI htot : IsTotal Torrent (fun a b => comparator f d a b ≤ 0) := by
    refine ⟨fun a b => ?_⟩
    cases d
    · exact cmpField_le_total f a b
    · show -cmpField f a b ≤ 0 ∨ -cmpField f b a ≤ 0
      have hn := cmpField_neg f a b
      omega
  haveI htr : IsTrans Torrent (fun a b => comparator f d a b ≤ 0) := by
    refine ⟨fun a b c hab hbc => ?_⟩
    cases d
    · exact cmpField_le_trans f hab hbc
    · have h1 : cmpField f b a ≤ 0 := (comparator_desc_iff f a b).mp hab
      have h2 : cmpField f c b ≤ 0 := (comparator_desc_iff f b c).mp hbc
      exact (comparator_desc_iff f a c).mpr (cmpField_le_trans f h2 h1)
  exact List.sorted_insertionSort (fun a b => comparator f d a b ≤ 0) l

theorem filter_orderedInsert {α : Type} (r : α → α → Prop) [DecidableRel r]
    (p : α → Bool) (x : α) (hx : p x = true)
    (hall : ∀ b, p b = true → r x b) :
    ∀ l : List α, (l.orderedInsert r x).filter p = x :: l.filter p := by
  intro l
  induction l with
  | nil => simp [List.orderedInsert, hx]
  | cons b t ih =>
    by_cases hrb : r x b
    · simp [List.orderedInsert, hrb, List.filter_cons, hx]
    · have hpb : p b = false := by
        cases hq : p b
        · rfl
        · exact absurd (hall b hq) hrb
      simp [List.orderedInsert, hrb, List.filter_cons, hpb, ih]

theorem filter_orderedInsert_not {α : Type} (r : α → α → Prop) [DecidableRel r]
    (p : α → Bool) (x : α) (hx : p x = false) :
    ∀ l : List α, (l.orderedInsert r x).filter p = l.filter p := by
  intro l
  induction l with
  | nil => simp [List.orderedInsert, hx]
  | cons b t ih =>
    by_cases hrb : r x b
    · simp [List.orderedInsert, hrb, List.filter_cons, hx]
    · simp [List.orderedInsert, hrb, List.filter_cons, ih]

theorem filter_insertionSort {α : Type} (r : α → α → Prop) [DecidableRel r]
    (p : α → Bool) (hall : ∀ a b, p a = true → p b = true → r a b) :
    ∀ l : List α, (l.insertionSort r).filter p = l.filter p := by
  intro l
  induction l with
  | nil => rfl
  | cons x t ih =>
    show ((t.insertionSort r).orderedInsert r x).filter p = (x :: t).filter p
    cases hx : p x
    · rw [filter_orderedInsert_not r p x hx, ih]
      simp [List.filter_cons, hx]
    · rw [filter_orderedInsert r p x hx (fun b hb => hall x b hx hb), ih]
      simp [List.filter_cons, hx]

theorem eq_of_perm_of_pairwise {α : Type} {r : α → α → Prop} :
    ∀ (l₁ l₂ : List α), l₁.Perm l₂ → l₁.Pairwise r → l₂.Pairwise r →
      (∀ a ∈ l₁, ∀ b ∈ l₁, r a b → r b a → a = b) → l₁ = l₂ := by
  intro l₁
  induction l₁ with
  | nil =>
    intro l₂ hp _ _ _
    exact hp.nil_eq
  | cons a t ih =>
    intro l₂ hp hs₁ hs₂ ha
    cases l₂ with
    | nil => exact absurd hp.symm.nil_eq (by simp)
    | cons b t₂ =>
      obtain ⟨h1, hs₁t⟩ := List.pairwise_cons.mp hs₁
      obtain ⟨h2, hs₂t⟩ := List.pairwise_cons.mp hs₂
      have hab : a = b := by
        have hmem : a ∈ b :: t₂ := hp.subset (List.mem_cons_self a t)
        rcases List.mem_cons.mp hmem with h | h
        · exact h
        · have hba : r b a := h2 a h
          have hmemb : b ∈ a :: t := hp.symm.subset (List.mem_cons_self b t₂)
          rcases List.mem_cons.mp hmemb with h3 | h3
          · exact h3.symm
          · have hab2 : r a b := h1 b h3
            exact ha a (List.mem_cons_self a t) b (List.mem_cons_of_mem a h3) hab2 hba
      subst hab
      have hp2 : t.Perm t₂ := hp.cons_inv
      have ha2 : ∀ x ∈ t, ∀ y ∈ t, r x y → r y x → x = y := fun x hx y hy =>
        ha x (List.mem_cons_of_mem a hx) y (List.mem_cons_of_mem a hy)
      rw [ih t₂ hp2 hs₁t hs₂t ha2]

theorem sortTorrents_desc_eq_reverse (f : SortField) (l : List Torrent)
    (hnd : (l.map (sortKey f)).Nodup) :
    sortTorrents f SortDir.desc l = (sortTorrents f SortDir.asc l).reverse := by
  have hdesc2 : (sortTorrents f SortDir.desc l).Pairwise (fun a b => cmpField f b a ≤ 0) :=
    (sortTorrents_sorted f SortDir.desc l).imp
      (fun hab => (comparator_desc_iff f _ _).mp hab)
  have hrev : ((sortTorrents f SortDir.asc l).reverse).Pairwise
      (fun a b => cmpField f b a ≤ 0) := by
    rw [List.pairwise_reverse]
    exact sortTorrents_sorted f SortDir.asc l
  have hperm : (sortTorrents f SortDir.desc l).Perm
      ((sortTorrents f SortDir.asc l).reverse) :=
    (sortTorrents_perm f SortDir.desc l).trans
      ((sortTorrents_perm f SortDir.asc l).symm.trans
        (List.reverse_perm (sortTorrents f SortDir.asc l)).symm)
  have hanti : ∀ a ∈ sortTorrents f SortDir.desc l, ∀ b ∈ sortTorrents f SortDir.desc l,
      cmpField f b a ≤ 0 → cmpField f a b ≤ 0 → a = b := by
    intro a hma b hmb hab hba
    have hal : a ∈ l := (sortTorrents_perm f SortDir.desc l).subset hma
    have hbl : b ∈ l := (sortTorrents_perm f SortDir.desc l).subset hmb
    have h0 : cmpField f a b = 0 := by
      have hn := cmpField_neg f a b
      omega
    exact List.inj_on_of_nodup_map hnd hal hbl ((cmpField_zero_iff f a b).mp h0)
  exact eq_of_perm_of_pairwise _ _ hperm hdesc2 hrev hanti

/-- Claim C4: the torrent-list sort is stable and total: for every input list
with no two entries sharing the sort key, sorting ascending and descending by
the same key yields exactly reversed orders; and for each of the five keys and
both directions, the entries carrying any given key value appear in the output
in their original relative order (tie-break by stable input order). -/
theorem sort_stable_and_direction_reversal :
    (∀ (f : SortField) (l : List Torrent), (l.map (sortKey f)).Nodup →
        sortTorrents f SortDir.desc l = (sortTorrents f SortDir.asc l).reverse) ∧
    (∀ (f : SortField) (d : SortDir) (l : List Torrent) (k : String ⊕ Int),
        (sortTorrents f d l).filter (fun t => decide (sortKey f t = k))
          = l.filter (fun t => decide (sortKey f t = k))) := by
  refine ⟨fun f l h => sortTorrents_desc_eq_reverse f l h, ?_⟩
  intro f d l k
  show (List.insertionSort (fun a b => comparator f d a b ≤ 0) l).filter
        (fun t => decide (sortKey f t = k))
      = l.filter (fun t => decide (sortKey f t = k))
  apply filter_insertionSort
  intro a b hpa hpb
  have ha2 : sortKey f a = k := of_decide_eq_true hpa
  have hb2 : sortKey f b = k := of_decide_eq_true hpb
  have h0 : cmpField f a b = 0 := (cmpField_zero_iff f a b).mpr (ha2.trans hb2.symm)
  cases d
  · show cmpField f a b ≤ 0
    omega
  · show -cmpField f a b ≤ 0
    omega

/-- Witness for C4: the reversal property applied to a concrete two-entry list
with distinct sizes. -/
theorem sort_stable_and_direction_reversal_witness :
    ([torrentSmall, torrentLarge].map (sortKey SortField.size)).Nodup ∧
      sortTorrents SortField.size SortDir.desc [torrentSmall, torrentLarge]
        = (sortTorrents SortField.size SortDir.asc [torrentSmall, torrentLarge]).reverse :=
  ⟨by decide,
    sort_stable_and_direction_reversal.1 SortField.size [torrentSmall, torrentLarge]
      (by decide)⟩

end TorrentEdge
